import Mathlib

/-!
Verification development for the emu8 CHIP-8 interpreter core.

The embedding below translates the interpreter core (the `core` crate:
`src/core/src/chip8.rs`, `src/core/src/opcode.rs`, `src/core/src/instruction.rs`,
`src/core/src/operations.rs`, together with the `State` type of
`src/src/state.rs`, which is the revision of the state module the core crate
consumes) into Lean.

Modelling conventions:
- `u8`/`u16` values are `Nat`; wrapping arithmetic (Rust `overflowing_add`,
  `overflowing_sub`, `overflowing_mul`) is written with an explicit `% 256`,
  and the unchecked Rust `+`/`-`/array-index operations, which panic in debug
  builds on overflow, underflow or an out-of-bounds index, are modelled by
  returning `none` exactly under the panic condition.
- Fixed-size arrays (`[u8; 16]`, `[u16; 16]`, `[u8; 4096]`, the frame buffer)
  are total functions `Nat → Nat`; every place Rust would bounds-check an
  index carries an explicit guard.
- `println!` tracing is pure observability and is not modelled.
- `rand::random::<u8>()` is modelled by threading an oracle byte `rnd`
  through the cycle functions.
-/

namespace Emu8

/-- The `DISPLAY_WIDTH` (constants; also literally in `src/src/chip8.rs`): 64. -/
def DISPLAY_WIDTH : Nat := 64

/-- The `DISPLAY_HEIGHT`: 32. -/
def DISPLAY_HEIGHT : Nat := 32

/-- The `MAX_SAVED_STATES` (`src/src/chip8.rs`, spec section 6): 1000. -/
def MAX_SAVED_STATES : Nat := 1000

/-- Modelled from the spec: the core crate's `constants.rs` is not under
`src/`; spec section 4.3 fixes the reset value of the sub-cycle counter to 8
("when it reaches zero, reset it to 8"), and the earlier in-repo revision
`src/src/chip8.rs` hardcodes `self.state.delay_counter = 8;` in the same
check-then-reset structure. -/
def CPU_CYCLES_PER_TIMER_CYCLE : Nat := 8

/-- The `State` from `src/src/state.rs` (the state module consumed by the core
crate; `src/core/src/state.rs` itself is absent from `src/`, but the core
crate imports `FrameBuffer` and `State` with exactly these fields). -/
structure State where
  v : Nat → Nat
  i : Nat
  pc : Nat
  sp : Nat
  delay_timer : Nat
  sound_timer : Nat
  stack : Nat → Nat
  memory : Nat → Nat
  frame_buffer : Nat → Nat → Nat
  draw_flag : Bool
  register_needing_key : Option Nat
  delay_counter : Nat

/-- Opcode nibble `x`: `(op & 0x0F00) >> 8` (src/core/src/opcode.rs). -/
def opX (op : Nat) : Nat := op / 256 % 16

/-- Opcode nibble `y`: `(op & 0x00F0) >> 4`. -/
def opY (op : Nat) : Nat := op / 16 % 16

/-- Opcode nibble `n`: `op & 0x000F`. -/
def opN (op : Nat) : Nat := op % 16

/-- Opcode low byte `kk`: `op & 0x00FF`. -/
def opKk (op : Nat) : Nat := op % 256

/-- Opcode low 12 bits `addr`: `op & 0x0FFF`. -/
def opAddr (op : Nat) : Nat := op % 4096

/-- Opcode high nibble: `(op & 0xF000) >> 12`. -/
def opNib0 (op : Nat) : Nat := op / 4096 % 16

/-- The `nibbles()`: the opcode's component nibbles. -/
def opNibbles (op : Nat) : Nat × Nat × Nat × Nat :=
  (opNib0 op, opX op, opY op, opN op)

/-- Pointwise write of one frame-buffer cell (`frame_buffer[y][x] = val`). -/
def update2 (fb : Nat → Nat → Nat) (y x val : Nat) : Nat → Nat → Nat :=
  fun r c => if r = y ∧ c = x then val else fb r c

/-- The `copy_from_slice` into `dst[start .. start+cnt]` from `src[0 .. cnt]`,
as the loop of single writes it performs. -/
def copyRange (dst : Nat → Nat) (start : Nat) (src : Nat → Nat) : Nat → (Nat → Nat)
  | 0 => dst
  | k + 1 => Function.update (copyRange dst start src k) (start + k) (src k)

/-! ## Operations (src/core/src/operations.rs)

Each operation takes the raw opcode and the prior state and yields the next
state, or `none` where the Rust function would panic (checked `u8`/`u16`
arithmetic or an out-of-bounds array/slice index). -/

/-- The `clr`: clear the frame buffer, set the draw flag, `pc += 2`. -/
def clr (_op : Nat) (s : State) : Option State :=
  if s.pc + 2 ≤ 65535 then
    some { s with pc := s.pc + 2, frame_buffer := fun _ _ => 0, draw_flag := true }
  else none

/-- The `rts`: `pc = stack[sp] + 2; sp -= 1`. Panics if `sp > 15` (stack index),
`sp = 0` (u8 underflow) or `stack[sp] + 2` overflows u16. -/
def rts (_op : Nat) (s : State) : Option State :=
  if s.sp ≤ 15 ∧ 1 ≤ s.sp ∧ s.stack s.sp + 2 ≤ 65535 then
    some { s with pc := s.stack s.sp + 2, sp := s.sp - 1 }
  else none

/-- The `jump`: `pc = addr`. -/
def jump (op : Nat) (s : State) : Option State :=
  some { s with pc := opAddr op }

/-- The `call`: `sp += 1; stack[sp] = pc; pc = addr`. Panics when the
incremented `sp` is not a valid stack index. -/
def call (op : Nat) (s : State) : Option State :=
  if s.sp + 1 ≤ 15 then
    some { s with pc := opAddr op, sp := s.sp + 1,
                  stack := Function.update s.stack (s.sp + 1) s.pc }
  else none

/-- The `ske`: skip next instruction if `Vx == kk`. -/
def ske (op : Nat) (s : State) : Option State :=
  let pc := if s.v (opX op) = opKk op then s.pc + 4 else s.pc + 2
  if pc ≤ 65535 then some { s with pc := pc } else none

/-- The `skne`: skip next instruction if `Vx != kk`. -/
def skne (op : Nat) (s : State) : Option State :=
  let pc := if s.v (opX op) ≠ opKk op then s.pc + 4 else s.pc + 2
  if pc ≤ 65535 then some { s with pc := pc } else none

/-- The `skre`: skip next instruction if `Vx == Vy`. -/
def skre (op : Nat) (s : State) : Option State :=
  let pc := if s.v (opX op) = s.v (opY op) then s.pc + 4 else s.pc + 2
  if pc ≤ 65535 then some { s with pc := pc } else none

/-- The `load`: `Vx = kk`. -/
def load (op : Nat) (s : State) : Option State :=
  if s.pc + 2 ≤ 65535 then
    some { s with pc := s.pc + 2, v := Function.update s.v (opX op) (opKk op) }
  else none

/-- The `add`: `Vx += kk`, wrapping (`overflowing_add`, carry dropped). -/
def add (op : Nat) (s : State) : Option State :=
  if s.pc + 2 ≤ 65535 then
    some { s with pc := s.pc + 2,
                  v := Function.update s.v (opX op) ((s.v (opX op) + opKk op) % 256) }
  else none

/-- The `mv`: `Vx = Vy`. -/
def mv (op : Nat) (s : State) : Option State :=
  if s.pc + 2 ≤ 65535 then
    some { s with pc := s.pc + 2, v := Function.update s.v (opX op) (s.v (opY op)) }
  else none

/-- The `or`: `Vx |= Vy`. -/
def or (op : Nat) (s : State) : Option State :=
  if s.pc + 2 ≤ 65535 then
    some { s with pc := s.pc + 2,
                  v := Function.update s.v (opX op) (s.v (opX op) ||| s.v (opY op)) }
  else none

/-- The `and`: `Vx &= Vy`. -/
def and (op : Nat) (s : State) : Option State :=
  if s.pc + 2 ≤ 65535 then
    some { s with pc := s.pc + 2,
                  v := Function.update s.v (opX op) (s.v (opX op) &&& s.v (opY op)) }
  else none

/-- The `xor`: `Vx ^= Vy`. -/
def xor (op : Nat) (s : State) : Option State :=
  if s.pc + 2 ≤ 65535 then
    some { s with pc := s.pc + 2,
                  v := Function.update s.v (opX op) (s.v (opX op) ^^^ s.v (opY op)) }
  else none

/-- The `addr`: `Vx += Vy; VF = overflow`. The flag write `v[0xF] = carry`
happens before the result write `v[x] = res`, so for `x = 0xF` the result
overwrites the flag. -/
def addr (op : Nat) (s : State) : Option State :=
  let res := (s.v (opX op) + s.v (opY op)) % 256
  let over := 256 ≤ s.v (opX op) + s.v (opY op)
  if s.pc + 2 ≤ 65535 then
    some { s with pc := s.pc + 2,
                  v := Function.update (Function.update s.v 15 (if over then 1 else 0))
                         (opX op) res }
  else none

/-- The `sub`: `Vx -= Vy; VF = !underflow` (wrapping subtraction on u8). -/
def sub (op : Nat) (s : State) : Option State :=
  let res := (s.v (opX op) + 256 - s.v (opY op)) % 256
  let under := s.v (opX op) < s.v (opY op)
  if s.pc + 2 ≤ 65535 then
    some { s with pc := s.pc + 2,
                  v := Function.update (Function.update s.v 15 (if under then 0 else 1))
                         (opX op) res }
  else none

/-- The `shr`: `VF = Vx & 1; Vx /= 2`. The second write reads the register copy
after the flag write, so for `x = 0xF` it halves the just-written flag. -/
def shr (op : Nat) (s : State) : Option State :=
  let v1 := Function.update s.v 15 (s.v (opX op) &&& 1)
  if s.pc + 2 ≤ 65535 then
    some { s with pc := s.pc + 2,
                  v := Function.update v1 (opX op) (v1 (opX op) / 2) }
  else none

/-- The `subn`: `Vx = Vy - Vx; VF = !underflow` (wrapping subtraction on u8). -/
def subn (op : Nat) (s : State) : Option State :=
  let res := (s.v (opY op) + 256 - s.v (opX op)) % 256
  let under := s.v (opY op) < s.v (opX op)
  if s.pc + 2 ≤ 65535 then
    some { s with pc := s.pc + 2,
                  v := Function.update (Function.update s.v 15 (if under then 0 else 1))
                         (opX op) res }
  else none

/-- The `shl`: `Vx *= 2` wrapping; `VF = overflow`. -/
def shl (op : Nat) (s : State) : Option State :=
  let res := s.v (opX op) * 2 % 256
  let over := 256 ≤ s.v (opX op) * 2
  if s.pc + 2 ≤ 65535 then
    some { s with pc := s.pc + 2,
                  v := Function.update (Function.update s.v 15 (if over then 1 else 0))
                         (opX op) res }
  else none

/-- The `skrne`: skip next instruction if `Vx != Vy`. -/
def skrne (op : Nat) (s : State) : Option State :=
  let pc := if s.v (opX op) ≠ s.v (opY op) then s.pc + 4 else s.pc + 2
  if pc ≤ 65535 then some { s with pc := pc } else none

/-- The `loadi`: `I = addr`. -/
def loadi (op : Nat) (s : State) : Option State :=
  if s.pc + 2 ≤ 65535 then some { s with pc := s.pc + 2, i := opAddr op } else none

/-- The `jumpi`: `pc = V0 + addr` (u16 addition of a u8 and a 12-bit address
cannot overflow). -/
def jumpi (op : Nat) (s : State) : Option State :=
  some { s with pc := s.v 0 + opAddr op }

/-- The `rand`: `Vx = rand_byte & kk`; the random u8 is the oracle `rnd`. -/
def rand (op rnd : Nat) (s : State) : Option State :=
  if s.pc + 2 ≤ 65535 then
    some { s with pc := s.pc + 2,
                  v := Function.update s.v (opX op) (rnd % 256 &&& opKk op) }
  else none

/-- One iteration of the inner draw loop: given the accumulated
`(v[0xF], frame-buffer copy)` and the loop indices `(byte, bit)`, OR the
collision bit of the original frame buffer into the flag and XOR the sprite
pixel into the copy. -/
def drawAcc (s : State) (op : Nat) (acc : Nat × (Nat → Nat → Nat)) (bt : Nat × Nat) :
    Nat × (Nat → Nat → Nat) :=
  let y := (s.v (opY op) + bt.1) % DISPLAY_HEIGHT
  let x := (s.v (opX op) + bt.2) % DISPLAY_WIDTH
  let pixel := s.memory (s.i + bt.1) >>> (7 - bt.2) &&& 1
  (acc.1 ||| (pixel &&& s.frame_buffer y x),
   update2 acc.2 y x (acc.2 y x ^^^ pixel))

/-- The `draw`: XOR an `n`-byte sprite from `memory[I..I+n]` onto the frame
buffer at `(Vx, Vy)` with wrapping; `v[0xF]` starts at 0 and accumulates
collision bits read from the original frame buffer. The guard
`i + n ≤ 4096 ∨ n = 0` is the condition under which every access
`memory[I + byte]`, `byte < n`, is in bounds. -/
def draw (op : Nat) (s : State) : Option State :=
  if (s.i + opN op ≤ 4096 ∨ opN op = 0) ∧ s.pc + 2 ≤ 65535 then
    let res := (List.range (opN op)).foldl
      (fun acc byte => (List.range 8).foldl (fun acc2 bit => drawAcc s op acc2 (byte, bit)) acc)
      (0, s.frame_buffer)
    some { s with pc := s.pc + 2, draw_flag := true,
                  v := Function.update s.v 15 res.1, frame_buffer := res.2 }
  else none

/-- The `skpr`: skip if the key `Vx` is pressed; panics if `Vx > 15`
(`pressed_keys` index). -/
def skpr (op : Nat) (s : State) (keys : Nat → Nat) : Option State :=
  if s.v (opX op) ≤ 15 then
    let pc := if keys (s.v (opX op)) = 1 then s.pc + 4 else s.pc + 2
    if pc ≤ 65535 then some { s with pc := pc } else none
  else none

/-- The `skup`: skip if the key `Vx` is not pressed. -/
def skup (op : Nat) (s : State) (keys : Nat → Nat) : Option State :=
  if s.v (opX op) ≤ 15 then
    let pc := if keys (s.v (opX op)) = 0 then s.pc + 4 else s.pc + 2
    if pc ≤ 65535 then some { s with pc := pc } else none
  else none

/-- The `moved`: `Vx = delay_timer`. -/
def moved (op : Nat) (s : State) : Option State :=
  if s.pc + 2 ≤ 65535 then
    some { s with pc := s.pc + 2, v := Function.update s.v (opX op) s.delay_timer }
  else none

/-- The `keyd`: await a keypress for `Vx`: `register_needing_key = Some(x)`,
`pc += 2`. -/
def keyd (op : Nat) (s : State) : Option State :=
  if s.pc + 2 ≤ 65535 then
    some { s with pc := s.pc + 2, register_needing_key := some (opX op) }
  else none

/-- The `loads`: `delay_timer = Vx`. -/
def loads (op : Nat) (s : State) : Option State :=
  if s.pc + 2 ≤ 65535 then
    some { s with pc := s.pc + 2, delay_timer := s.v (opX op) }
  else none

/-- The `ld`: `sound_timer = Vx`. -/
def ld (op : Nat) (s : State) : Option State :=
  if s.pc + 2 ≤ 65535 then
    some { s with pc := s.pc + 2, sound_timer := s.v (opX op) }
  else none

/-- The `addi`: `I += Vx` (checked u16 addition). -/
def addi (op : Nat) (s : State) : Option State :=
  if s.i + s.v (opX op) ≤ 65535 ∧ s.pc + 2 ≤ 65535 then
    some { s with pc := s.pc + 2, i := s.i + s.v (opX op) }
  else none

/-- The `ldspr`: `I = Vx * 5` (u16 multiplication of a u8 cannot overflow). -/
def ldspr (op : Nat) (s : State) : Option State :=
  if s.pc + 2 ≤ 65535 then
    some { s with pc := s.pc + 2, i := s.v (opX op) * 5 }
  else none

/-- The `bcd`: `memory[I..I+3] = [hundreds, tens, ones]` of `Vx`; panics when
the slice `I..I+3` leaves the 4096-byte memory. -/
def bcd (op : Nat) (s : State) : Option State :=
  if s.i + 3 ≤ 4096 ∧ s.pc + 2 ≤ 65535 then
    some { s with pc := s.pc + 2,
                  memory :=
                    Function.update
                      (Function.update
                        (Function.update s.memory s.i (s.v (opX op) / 100 % 10))
                        (s.i + 1) (s.v (opX op) / 10 % 10))
                      (s.i + 2) (s.v (opX op) % 10) }
  else none

/-- The `stor`: `memory[I..=I+x] = V0..=Vx` (inclusive, length `x + 1`); panics
when the inclusive upper index `I + x` is not below 4096. -/
def stor (op : Nat) (s : State) : Option State :=
  if s.i + opX op < 4096 ∧ s.pc + 2 ≤ 65535 then
    some { s with pc := s.pc + 2, memory := copyRange s.memory s.i s.v (opX op + 1) }
  else none

/-- The `read`: `V0..=Vx = memory[I..=I+x]` (inclusive, length `x + 1`). -/
def read (op : Nat) (s : State) : Option State :=
  if s.i + opX op < 4096 ∧ s.pc + 2 ≤ 65535 then
    some { s with pc := s.pc + 2,
                  v := copyRange s.v 0 (fun k => s.memory (s.i + k)) (opX op + 1) }
  else none

/-- The instruction descriptors of `src/core/src/instruction.rs`. -/
inductive Instruction where
  | Clr | Rts | Jump | Call | Ske | Skne | Skre | Load | Add | Move
  | Or | And | Xor | Addr | Sub | Shr | Subn | Shl | Skrne | Loadi
  | Jumpi | Rand | Draw | Skpr | Skup | Moved | Keyd | Loads | Ld
  | Addi | Ldspr | Bcd | Stor | Read
  deriving DecidableEq

/-- The `Instruction::from_op`: select the instruction for an opcode by its
nibbles; `none` models the `panic!("Opcode ... is not implemented")` arm. -/
def fromOp (op : Nat) : Option Instruction :=
  match opNibbles op with
  | (0x0, 0x0, 0xE, 0x0) => some .Clr
  | (0x0, 0x0, 0xE, 0xE) => some .Rts
  | (0x1, _, _, _) => some .Jump
  | (0x2, _, _, _) => some .Call
  | (0x3, _, _, _) => some .Ske
  | (0x4, _, _, _) => some .Skne
  | (0x5, _, _, 0x0) => some .Skre
  | (0x6, _, _, _) => some .Load
  | (0x7, _, _, _) => some .Add
  | (0x8, _, _, 0x0) => some .Move
  | (0x8, _, _, 0x1) => some .Or
  | (0x8, _, _, 0x2) => some .And
  | (0x8, _, _, 0x3) => some .Xor
  | (0x8, _, _, 0x4) => some .Addr
  | (0x8, _, _, 0x5) => some .Sub
  | (0x8, _, _, 0x6) => some .Shr
  | (0x8, _, _, 0x7) => some .Subn
  | (0x8, _, _, 0xE) => some .Shl
  | (0x9, _, _, 0x0) => some .Skrne
  | (0xA, _, _, _) => some .Loadi
  | (0xB, _, _, _) => some .Jumpi
  | (0xC, _, _, _) => some .Rand
  | (0xD, _, _, _) => some .Draw
  | (0xE, _, 0x9, 0xE) => some .Skpr
  | (0xE, _, 0xA, 0x1) => some .Skup
  | (0xF, _, 0x0, 0x7) => some .Moved
  | (0xF, _, 0x0, 0xA) => some .Keyd
  | (0xF, _, 0x1, 0x5) => some .Loads
  | (0xF, _, 0x1, 0x8) => some .Ld
  | (0xF, _, 0x1, 0xE) => some .Addi
  | (0xF, _, 0x2, 0x9) => some .Ldspr
  | (0xF, _, 0x3, 0x3) => some .Bcd
  | (0xF, _, 0x5, 0x5) => some .Stor
  | (0xF, _, 0x6, 0x5) => some .Read
  | _ => none

/-- The `Instruction::execute`: dispatch to the operation for the instruction.
`rnd` is the random-byte oracle consumed only by `Rand`. -/
def executeInstr (instr : Instruction) (op rnd : Nat) (s : State) (keys : Nat → Nat) :
    Option State :=
  match instr with
  | .Clr => clr op s
  | .Rts => rts op s
  | .Jump => jump op s
  | .Call => call op s
  | .Ske => ske op s
  | .Skne => skne op s
  | .Skre => skre op s
  | .Load => load op s
  | .Add => add op s
  | .Move => mv op s
  | .Or => or op s
  | .And => and op s
  | .Xor => xor op s
  | .Addr => addr op s
  | .Sub => sub op s
  | .Shr => shr op s
  | .Subn => subn op s
  | .Shl => shl op s
  | .Skrne => skrne op s
  | .Loadi => loadi op s
  | .Jumpi => jumpi op s
  | .Rand => rand op rnd s
  | .Draw => draw op s
  | .Skpr => skpr op s keys
  | .Skup => skup op s keys
  | .Moved => moved op s
  | .Keyd => keyd op s
  | .Loads => loads op s
  | .Ld => ld op s
  | .Addi => addi op s
  | .Ldspr => ldspr op s
  | .Bcd => bcd op s
  | .Stor => stor op s
  | .Read => read op s

/-- Decode then execute one opcode (`op.to_instruction()` followed by
`instruction.execute(...)` in `Chip8::advance_cpu`). -/
def executeOp (rnd op : Nat) (s : State) (keys : Nat → Nat) : Option State :=
  match fromOp op with
  | some instr => executeInstr instr op rnd s keys
  | none => none

/-- The `Chip8::get_op`: big-endian combination of `memory[pc]` and
`memory[pc+1]` (`left << 8 | right`); panics when `pc + 1` is outside the
4096-byte memory. -/
def State.getOp (s : State) : Option Nat :=
  if s.pc + 1 ≤ 4095 then some (s.memory s.pc * 256 + s.memory (s.pc + 1)) else none

/-- Modelled from the spec: `sprites.rs` / `SPRITE_SHEET` is not under
`src/`; spec section 3 fixes a 16-glyph × 5-byte hexadecimal sprite font in
bytes 0x000–0x04F, and the conventional CHIP-8 font (whose 0-glyph
`F0 90 90 90 F0` the in-repo draw test relies on) is used. No claim depends
on the individual font bytes. -/
def SPRITE_SHEET : List Nat :=
  [0xF0, 0x90, 0x90, 0x90, 0xF0,
   0x20, 0x60, 0x20, 0x20, 0x70,
   0xF0, 0x10, 0xF0, 0x80, 0xF0,
   0xF0, 0x10, 0xF0, 0x10, 0xF0,
   0x90, 0x90, 0xF0, 0x10, 0x10,
   0xF0, 0x80, 0xF0, 0x10, 0xF0,
   0xF0, 0x80, 0xF0, 0x90, 0xF0,
   0xF0, 0x10, 0x20, 0x40, 0x40,
   0xF0, 0x90, 0xF0, 0x90, 0xF0,
   0xF0, 0x90, 0xF0, 0x10, 0xF0,
   0xF0, 0x90, 0xF0, 0x90, 0x90,
   0xE0, 0x90, 0xE0, 0x90, 0xE0,
   0xF0, 0x80, 0x80, 0x80, 0xF0,
   0xE0, 0x90, 0x90, 0x90, 0xE0,
   0xF0, 0x80, 0xF0, 0x80, 0xF0,
   0xF0, 0x80, 0xF0, 0x80, 0x80]

/-- The `State::new`: sprite sheet in `memory[0..80]`, `pc = 0x200`, everything
else zero / empty. -/
def State.new : State where
  v := fun _ => 0
  i := 0
  pc := 0x200
  sp := 0
  delay_timer := 0
  sound_timer := 0
  stack := fun _ => 0
  memory := fun j => if j < 80 then SPRITE_SHEET.getD j 0 else 0
  frame_buffer := fun _ _ => 0
  draw_flag := false
  register_needing_key := none
  delay_counter := 0

/-- The `Chip8` (src/core/src/chip8.rs): current state, bounded most-recent-first
history, pressed keys. -/
structure Chip8 where
  state : State
  previous_states : List State
  pressed_keys : Nat → Nat

/-- The `Chip8::new`. -/
def Chip8.new : Chip8 where
  state := State.new
  previous_states := []
  pressed_keys := fun _ => 0

/-- The `Chip8::save_state`: if the history already holds `MAX_SAVED_STATES`
entries, drop the oldest (back), then push the current state at the front. -/
def Chip8.saveState (m : Chip8) : Chip8 :=
  { m with previous_states :=
      m.state :: (if m.previous_states.length = MAX_SAVED_STATES
                  then m.previous_states.dropLast else m.previous_states) }

/-- The `Chip8::advance_cpu`: if no register awaits a key, fetch, decode and
execute the opcode at `pc` (the `println!` trace is not modelled); in every
case push the (possibly unchanged) current state onto the history. `none`
models a panic during fetch, decode or execution. -/
def Chip8.advanceCpu (rnd : Nat) (m : Chip8) : Option Chip8 :=
  match m.state.register_needing_key with
  | none =>
    match m.state.getOp with
    | none => none
    | some op =>
      match executeOp rnd op m.state m.pressed_keys with
      | none => none
      | some s' => some (Chip8.saveState { m with state := s' })
  | some _ => some (Chip8.saveState m)

/-- The `Chip8::reverse_cpu`: pop the most recent history entry into the current
state; a no-op when the history is empty. -/
def Chip8.reverseCpu (m : Chip8) : Chip8 :=
  match m.previous_states with
  | [] => m
  | s :: rest => { m with state := s, previous_states := rest }

/-- The `Chip8::advance_timers`: when the sub-cycle counter is 0, reset it to
`CPU_CYCLES_PER_TIMER_CYCLE` and decrement each nonzero timer; otherwise
just decrement the counter. -/
def Chip8.advanceTimers (m : Chip8) : Chip8 :=
  if m.state.delay_counter = 0 then
    { m with state :=
        { m.state with
            delay_counter := CPU_CYCLES_PER_TIMER_CYCLE,
            delay_timer := if 0 < m.state.delay_timer then m.state.delay_timer - 1
                           else m.state.delay_timer,
            sound_timer := if 0 < m.state.sound_timer then m.state.sound_timer - 1
                           else m.state.sound_timer } }
  else
    { m with state := { m.state with delay_counter := m.state.delay_counter - 1 } }

/-- The `Chip8::key_press`: mark the key pressed; if a register awaits a key,
store the key there and clear `register_needing_key`. `none` models the
panics on a key or register index outside `0..16`. -/
def Chip8.keyPress (key : Nat) (m : Chip8) : Option Chip8 :=
  if key ≤ 15 then
    match m.state.register_needing_key with
    | some r =>
      if r ≤ 15 then
        some { m with
                 state := { m.state with v := Function.update m.state.v r key,
                                         register_needing_key := none },
                 pressed_keys := Function.update m.pressed_keys key 1 }
      else none
    | none => some { m with pressed_keys := Function.update m.pressed_keys key 1 }
  else none

/-- The `Chip8::key_release`: mark the key released. -/
def Chip8.keyRelease (key : Nat) (m : Chip8) : Option Chip8 :=
  if key ≤ 15 then
    some { m with pressed_keys := Function.update m.pressed_keys key 0 }
  else none

/-- The `Chip8::load_rom`: `reader.read_exact(&mut memory[0x200..])`. The
buffer `memory[0x200..]` has `4096 - 0x200 = 3584` bytes; `read_exact`
succeeds exactly when the source supplies at least that many bytes, copying
the first 3584 of them, and returns an `UnexpectedEof` error otherwise (the
buffer contents are then unspecified per the `std::io::Read` contract, which
the `none` result absorbs). -/
def Chip8.loadRom (rom : List Nat) (m : Chip8) : Option Chip8 :=
  if 4096 - 0x200 ≤ rom.length then
    some { m with state :=
      { m.state with memory :=
          fun j => if 0x200 ≤ j ∧ j < 4096 then rom.getD (j - 0x200) 0
                   else m.state.memory j } }
  else none

/-- The `Chip8::get_frame`: the frame buffer if the draw flag is set, nothing
otherwise (an immutable borrow: the machine value is unchanged). -/
def Chip8.getFrame (m : Chip8) : Option (Nat → Nat → Nat) :=
  if m.state.draw_flag then some m.state.frame_buffer else none

/-- Iterated `advance_cpu`, consuming one random-oracle byte per cycle. -/
def advanceMany : List Nat → Chip8 → Option Chip8
  | [], m => some m
  | r :: rs, m => (Chip8.advanceCpu r m).bind (advanceMany rs)

/-- The machines reachable from `Chip8::new` through the public interface. -/
inductive Reachable : Chip8 → Prop where
  | new : Reachable Chip8.new
  | loadRom {m m' rom} : Reachable m → Chip8.loadRom rom m = some m' → Reachable m'
  | advanceCpu {m m' rnd} : Reachable m → Chip8.advanceCpu rnd m = some m' → Reachable m'
  | reverseCpu {m} : Reachable m → Reachable (Chip8.reverseCpu m)
  | advanceTimers {m} : Reachable m → Reachable (Chip8.advanceTimers m)
  | keyPress {m m' key} : Reachable m → Chip8.keyPress key m = some m' → Reachable m'
  | keyRelease {m m' key} : Reachable m → Chip8.keyRelease key m = some m' → Reachable m'

/-! ## Concrete states and machines used by witnesses and counterexamples -/

/-- An all-zero state with the reset program counter 0x200; concrete
witnesses start from record updates of it. -/
def baseState : State where
  v := fun _ => 0
  i := 0
  pc := 0x200
  sp := 0
  delay_timer := 0
  sound_timer := 0
  stack := fun _ => 0
  memory := fun _ => 0
  frame_buffer := fun _ _ => 0
  draw_flag := false
  register_needing_key := none
  delay_counter := 0

/-- A machine around a given state, with empty history and no pressed keys. -/
def mkChip (s : State) : Chip8 := ⟨s, [], fun _ => 0⟩

/-- State for the return scenario of C7: `sp = 1`, `stack[1] = 0xABCD`. -/
def rtsState : State :=
  { baseState with sp := 1, stack := fun j => if j = 1 then 0xABCD else 0 }

/-- State for the C4 counterexample: `V0 = 1`, `VF = 1`. -/
def vfState : State :=
  { baseState with v := fun j => if j = 15 ∨ j = 0 then 1 else 0 }

/-- State with `V1 = 200`, `V2 = 100` for the C4 witness. -/
def addsubState : State :=
  { baseState with v := fun j => if j = 1 then 200 else if j = 2 then 100 else 0 }

/-! ## C4 -/

/-- Machine whose next instruction is `00E0` (clear screen). -/
def clrChip : Chip8 :=
  mkChip { baseState with memory := fun j => if j = 0x201 then 0xE0 else 0 }

/-- The machine after executing `00E0` from `clrChip`: its draw flag is set.
-/
def drawnChip : Chip8 := (Chip8.advanceCpu 0 clrChip).getD Chip8.new

/-! ## C2 -/

/-- State for the timer-cadence evaluation of C6: the sub-cycle counter holds
8 (the value it is reset to), and both timers are nonzero. -/
def timerState : State :=
  { baseState with delay_counter := 8, delay_timer := 5, sound_timer := 3 }

/-- State with `V1 = 123` and `I = 0x200` for the C10 witness. -/
def bcdState : State :=
  { baseState with v := fun j => if j = 1 then 123 else 0, i := 0x200 }

/-- State with `I = 4094` whose register block transfer of length 5 runs out
of memory. -/
def oobState : State := { baseState with i := 4094 }

/-- Machine whose program is `F10A` (await key into V1) followed by `6122`
(load `V1 = 0x22`). -/
def awaitChip : Chip8 :=
  mkChip { baseState with memory := fun j =>
    if j = 0x200 then 0xF1 else if j = 0x201 then 0x0A else
    if j = 0x202 then 0x61 else if j = 0x203 then 0x22 else 0 }

/-- Machine whose program is `6122` (load, leaves the flag clear) followed
by `00E0` (clear screen, sets the flag). -/
def flagChip : Chip8 :=
  mkChip { baseState with memory := fun j =>
    if j = 0x200 then 0x61 else if j = 0x201 then 0x22 else
    if j = 0x203 then 0xE0 else 0 }

/-- Machine with the draw flag set (after clearing the screen) and a `6122`
load instruction at its pc. -/
def drawnChip2 : Chip8 :=
  mkChip { baseState with
             draw_flag := true
             pc := 0x202
             memory := fun j => if j = 0x202 then 0x61 else if j = 0x203 then 0x22 else 0 }

/-- Program for the C1 counterexample: a clear-screen at 0x200 padded to the
exact 3584 bytes `load_rom` demands. -/
def rewindRom : List Nat := 0x00 :: 0xE0 :: List.replicate 3582 0

/-- The machine `load_rom(rewindRom)` produces from a fresh machine. -/
def rewindChip : Chip8 :=
  { Chip8.new with state :=
      { Chip8.new.state with memory :=
          fun j => if 0x200 ≤ j ∧ j < 4096 then rewindRom.getD (j - 0x200) 0
                   else Chip8.new.state.memory j } }

/-- The index pairs `(byte, bit)` the nested draw loops visit, row-major. -/
def drawHits (n : Nat) : List (Nat × Nat) :=
  (List.range n).flatMap fun b => (List.range 8).map fun t => (b, t)

/-- State for the C5 wraparound witness: `V0 = 63`, `V1 = 31`, a solid
8-pixel sprite row `0xFF` at `I = 0x200`, empty frame buffer. -/
def wrapState : State :=
  { baseState with
      v := fun j => if j = 0 then 63 else if j = 1 then 31 else 0
      i := 0x200
      memory := fun j => if j = 0x200 then 0xFF else 0 }

/-! ## Helper lemmas -/

/-- Pointwise effect of `copyRange`: cells in `[start, start + cnt)` receive
the source, all others keep their old value. -/
lemma copyRange_apply (dst src : Nat → Nat) (start cnt j : Nat) :
    copyRange dst start src cnt j
      = if start ≤ j ∧ j < start + cnt then src (j - start) else dst j := by
  induction cnt with
  | zero =>
    simp only [copyRange]
    rw [if_neg (by omega)]
  | succ k ih =>
    simp only [copyRange, Function.update_apply, ih]
    by_cases h1 : j = start + k
    · subst h1
      rw [if_pos rfl, if_pos (by omega)]
      congr 1
      omega
    · rw [if_neg h1]
      by_cases h2 : start ≤ j ∧ j < start + k
      · rw [if_pos h2, if_pos (by omega)]
      · rw [if_neg h2, if_neg (by omega)]

lemma or_bit_le (a b : Nat) (ha : a ≤ 1) (hb : b ≤ 1) : a ||| b ≤ 1 := by
  interval_cases a <;> interval_cases b <;> decide

lemma or_bit_eq_one (a b : Nat) (ha : a ≤ 1) (hb : b ≤ 1) :
    a ||| b = 1 ↔ a = 1 ∨ b = 1 := by
  interval_cases a <;> interval_cases b <;> decide

lemma and_bit_eq_one (a b : Nat) (ha : a ≤ 1) (hb : b ≤ 1) :
    a &&& b = 1 ↔ a = 1 ∧ b = 1 := by
  interval_cases a <;> interval_cases b <;> decide

lemma foldl_or_le_one {β : Type} (f : β → Nat) (hf : ∀ e, f e ≤ 1) :
    ∀ (L : List β) (a : Nat), a ≤ 1 → L.foldl (fun acc e => acc ||| f e) a ≤ 1 := by
  intro L
  induction L with
  | nil => intro a ha; exact ha
  | cons e t ih => intro a ha; exact ih (a ||| f e) (or_bit_le a (f e) ha (hf e))

lemma foldl_or_eq_one {β : Type} (f : β → Nat) (hf : ∀ e, f e ≤ 1) :
    ∀ (L : List β) (a : Nat), a ≤ 1 →
      (L.foldl (fun acc e => acc ||| f e) a = 1 ↔ a = 1 ∨ ∃ e ∈ L, f e = 1) := by
  intro L
  induction L with
  | nil => intro a ha; simp
  | cons e t ih =>
    intro a ha
    rw [List.foldl_cons, ih (a ||| f e) (or_bit_le a (f e) ha (hf e)),
      or_bit_eq_one a (f e) ha (hf e)]
    constructor
    · rintro ((h | h) | h)
      · exact Or.inl h
      · exact Or.inr ⟨e, List.mem_cons_self e t, h⟩
      · obtain ⟨e', he', hfe'⟩ := h
        exact Or.inr ⟨e', List.mem_cons_of_mem e he', hfe'⟩
    · rintro (h | ⟨e', he', hfe'⟩)
      · exact Or.inl (Or.inl h)
      · rcases List.mem_cons.mp he' with rfl | hmem
        · exact Or.inl (Or.inr hfe')
        · exact Or.inr ⟨e', hmem, hfe'⟩

lemma foldl_xor_shift {β : Type} (g : β → Nat) :
    ∀ (L : List β) (a b : Nat),
      L.foldl (fun x e => x ^^^ g e) (a ^^^ b) = a ^^^ L.foldl (fun x e => x ^^^ g e) b := by
  intro L
  induction L with
  | nil => intro a b; rfl
  | cons e t ih =>
    intro a b
    rw [List.foldl_cons, List.foldl_cons, Nat.xor_assoc, ih]

lemma foldl_xor_zero (f : Nat → Nat) (n : Nat) (h : ∀ j, j < n → f j = 0) :
    (List.range n).foldl (fun a j => a ^^^ f j) 0 = 0 := by
  induction n with
  | zero => rfl
  | succ k ih =>
    rw [List.range_succ, List.foldl_append, ih (fun j hj => h j (by omega))]
    simp [h k (by omega)]

lemma foldl_xor_single (f : Nat → Nat) (n i₀ : Nat) (hi : i₀ < n)
    (h0 : ∀ j, j < n → j ≠ i₀ → f j = 0) :
    (List.range n).foldl (fun a j => a ^^^ f j) 0 = f i₀ := by
  induction n with
  | zero => omega
  | succ k ih =>
    rw [List.range_succ, List.foldl_append]
    by_cases hk : i₀ = k
    · subst hk
      rw [foldl_xor_zero f i₀ (fun j hj => h0 j (by omega) (by omega))]
      simp [Nat.zero_xor]
    · rw [ih (by omega) (fun j hj hne => h0 j (by omega) hne)]
      simp [h0 k (by omega) (fun h => hk h.symm)]

lemma foldl_hits {α : Type} (g : α → Nat × Nat → α) (n : Nat) (init : α) :
    (List.range n).foldl
        (fun acc byte => (List.range 8).foldl (fun acc2 bit => g acc2 (byte, bit)) acc) init
      = (drawHits n).foldl g init := by
  induction n with
  | zero => rfl
  | succ k ih =>
    have hrs : List.range (k + 1) = List.range k ++ [k] := List.range_succ k
    have hd : drawHits (k + 1) = drawHits k ++ (List.range 8).map (fun t => (k, t)) := by
      rw [drawHits, drawHits, hrs, List.flatMap_append]
      simp [List.flatMap_cons]
    rw [hrs, List.foldl_append, ih, hd, List.foldl_append, List.foldl_map]
    simp only [List.foldl_cons, List.foldl_nil]

lemma drawHits_mem (n : Nat) (bt : Nat × Nat) :
    bt ∈ drawHits n ↔ bt.1 < n ∧ bt.2 < 8 := by
  simp only [drawHits, List.mem_flatMap, List.mem_map, List.mem_range]
  constructor
  · rintro ⟨b, hb, t, ht, rfl⟩
    exact ⟨hb, ht⟩
  · rintro ⟨h1, h2⟩
    exact ⟨bt.1, h1, bt.2, h2, rfl⟩

lemma drawFold_fst (s : State) (op : Nat) :
    ∀ (L : List (Nat × Nat)) (init : Nat × (Nat → Nat → Nat)),
      (L.foldl (drawAcc s op) init).1
        = L.foldl (fun a bt => a |||
            ((s.memory (s.i + bt.1) >>> (7 - bt.2) &&& 1)
              &&& s.frame_buffer ((s.v (opY op) + bt.1) % DISPLAY_HEIGHT)
                    ((s.v (opX op) + bt.2) % DISPLAY_WIDTH))) init.1 := by
  intro L
  induction L with
  | nil => intro init; rfl
  | cons e t ih =>
    intro init
    rw [List.foldl_cons, List.foldl_cons, ih]
    rfl

lemma drawRow_snd (s : State) (op b : Nat) :
    ∀ (L : List Nat) (init : Nat × (Nat → Nat → Nat)) (r c : Nat),
      (L.foldl (fun acc2 bit => drawAcc s op acc2 (b, bit)) init).2 r c
        = init.2 r c ^^^ L.foldl (fun a t => a ^^^
            (if r = (s.v (opY op) + b) % DISPLAY_HEIGHT
                ∧ c = (s.v (opX op) + t) % DISPLAY_WIDTH
             then s.memory (s.i + b) >>> (7 - t) &&& 1 else 0)) 0 := by
  intro L
  induction L with
  | nil =>
    intro init r c
    rw [List.foldl_nil, List.foldl_nil, Nat.xor_zero]
  | cons e t ih =>
    intro init r c
    rw [List.foldl_cons, List.foldl_cons, ih]
    have hstep : (drawAcc s op init (b, e)).2 r c
        = init.2 r c ^^^
          (if r = (s.v (opY op) + b) % DISPLAY_HEIGHT
              ∧ c = (s.v (opX op) + e) % DISPLAY_WIDTH
           then s.memory (s.i + b) >>> (7 - e) &&& 1 else 0) := by
      simp only [drawAcc, update2]
      split
      · next hcond =>
        rw [hcond.1, hcond.2]
      · next _ =>
        rw [Nat.xor_zero]
    rw [hstep, Nat.xor_assoc]
    congr 1
    rw [Nat.zero_xor]
    conv_rhs => rw [← Nat.xor_zero (if r = (s.v (opY op) + b) % DISPLAY_HEIGHT
          ∧ c = (s.v (opX op) + e) % DISPLAY_WIDTH
        then s.memory (s.i + b) >>> (7 - e) &&& 1 else 0)]
    rw [foldl_xor_shift]

lemma drawOuter_snd (s : State) (op : Nat) :
    ∀ (L : List Nat) (init : Nat × (Nat → Nat → Nat)) (r c : Nat),
      (L.foldl (fun acc byte => (List.range 8).foldl
          (fun acc2 bit => drawAcc s op acc2 (byte, bit)) acc) init).2 r c
        = init.2 r c ^^^ L.foldl (fun acc b => acc ^^^
            (List.range 8).foldl (fun a t => a ^^^
              (if r = (s.v (opY op) + b) % DISPLAY_HEIGHT
                  ∧ c = (s.v (opX op) + t) % DISPLAY_WIDTH
               then s.memory (s.i + b) >>> (7 - t) &&& 1 else 0)) 0) 0 := by
  intro L
  induction L with
  | nil =>
    intro init r c
    rw [List.foldl_nil, List.foldl_nil, Nat.xor_zero]
  | cons b L' ih =>
    intro init r c
    rw [List.foldl_cons, List.foldl_cons, ih, drawRow_snd, Nat.xor_assoc]
    congr 1
    rw [Nat.zero_xor]
    conv_rhs => rw [← Nat.xor_zero ((List.range 8).foldl (fun a t => a ^^^
        (if r = (s.v (opY op) + b) % DISPLAY_HEIGHT
            ∧ c = (s.v (opX op) + t) % DISPLAY_WIDTH
         then s.memory (s.i + b) >>> (7 - t) &&& 1 else 0)) 0)]
    rw [foldl_xor_shift]

/-- No operation of the instruction executor ever clears the draw flag:
`clr` and `draw` set it, every other instruction inherits it. -/
lemma executeOp_draw_flag_mono (rnd op : Nat) (s : State) (keys : Nat → Nat) (s' : State)
    (h : executeOp rnd op s keys = some s') (hflag : s.draw_flag = true) :
    s'.draw_flag = true := by
  rw [executeOp] at h
  rcases hfo : fromOp op with _ | instr
  · rw [hfo] at h
    exact Option.noConfusion h
  · rw [hfo] at h
    cases instr <;>
      simp only [executeInstr, clr, rts, jump, call, ske, skne, skre, load, add, mv,
        Emu8.or, Emu8.and, Emu8.xor, addr, sub, shr, subn, shl, skrne, loadi, jumpi,
        rand, draw, skpr, skup, moved, keyd, loads, ld, addi, ldspr, bcd, stor, read] at h <;>
      (repeat' split at h) <;>
      first
        | exact Option.noConfusion h
        | (injection h with h
           subst h
           simpa using hflag)

/-- Dropping the oldest entry (when the history is full) never changes a
front prefix of fewer than `MAX_SAVED_STATES` entries. -/
lemma trim_take (h : List State) (j : Nat) (hj : j ≤ MAX_SAVED_STATES - 1) :
    (if h.length = MAX_SAVED_STATES then h.dropLast else h).take j = h.take j := by
  split
  · next hlen =>
    rw [List.dropLast_eq_take, List.take_take, hlen]
    congr 1
    omega
  · rfl

/-- After a successful `advance_cpu` the history is the machine's (new)
current state consed onto the possibly-trimmed old history. -/
lemma advanceCpu_history (rnd : Nat) (m m' : Chip8)
    (h : Chip8.advanceCpu rnd m = some m') :
    m'.previous_states
      = m'.state :: (if m.previous_states.length = MAX_SAVED_STATES
                     then m.previous_states.dropLast else m.previous_states) := by
  rcases hrnk : m.state.register_needing_key with _ | r
  · simp only [Chip8.advanceCpu, hrnk] at h
    rcases hop : m.state.getOp with _ | op
    · simp only [hop] at h
      exact Option.noConfusion h
    · simp only [hop] at h
      rcases hex : executeOp rnd op m.state m.pressed_keys with _ | s'
      · simp only [hex] at h
        exact Option.noConfusion h
      · simp only [hex] at h
        injection h with h
        rw [h.symm]
        rfl
  · simp only [Chip8.advanceCpu, hrnk] at h
    injection h with h
    rw [h.symm]
    rfl

/-- Forward cycles only push on top of (and possibly trim the far end of)
the history: any prefix of the starting history below the capacity remains
a suffix of the corresponding front segment afterwards, below the pushed
states. -/
lemma advanceMany_take (rnds : List Nat) :
    ∀ (m₁ m₂ : Chip8), advanceMany rnds m₁ = some m₂ →
    ∀ (l : List State), m₁.previous_states.take l.length = l →
      rnds.length + l.length ≤ MAX_SAVED_STATES →
      ∃ p : List State, p.length = rnds.length ∧
        m₂.previous_states.take (rnds.length + l.length) = p ++ l := by
  induction rnds with
  | nil =>
    intro m₁ m₂ h l hl hlen
    injection h with h
    subst h
    exact ⟨[], rfl, by simpa using hl⟩
  | cons r rs ih =>
    intro m₁ m₂ h l hl hlen
    obtain ⟨m', hstep, hrest⟩ :
        ∃ m', Chip8.advanceCpu r m₁ = some m' ∧ advanceMany rs m' = some m₂ := by
      rw [advanceMany] at h
      rcases hs : Chip8.advanceCpu r m₁ with _ | m'
      · rw [hs] at h
        exact Option.noConfusion h
      · rw [hs] at h
        exact ⟨m', rfl, h⟩
    have hl' : m'.previous_states.take (l.length + 1) = m'.state :: l := by
      rw [advanceCpu_history r m₁ m' hstep, List.take_succ_cons]
      congr 1
      rw [trim_take m₁.previous_states l.length (by simp at hlen; omega)]
      exact hl
    obtain ⟨p', hp'len, hp'⟩ := ih m' m₂ hrest (m'.state :: l) hl'
      (by simp at hlen ⊢; omega)
    refine ⟨p' ++ [m'.state], by simp [hp'len], ?_⟩
    have hidx : (r :: rs).length + l.length = rs.length + (m'.state :: l).length := by
      simp
      omega
    rw [hidx, hp']
    simp

/-- Popping `p.length + 1` history entries lands on the deepest entry of the
front segment `p ++ [x]`. -/
lemma reverseCpu_iterate (p : List State) :
    ∀ (x : State) (m : Chip8), m.previous_states.take (p.length + 1) = p ++ [x] →
      ((Chip8.reverseCpu)^[p.length + 1] m).state = x := by
  induction p with
  | nil =>
    intro x m hm
    rcases hprev : m.previous_states with _ | ⟨a, rest⟩
    · rw [hprev] at hm
      exact absurd hm (by simp)
    · rw [hprev, List.take_succ_cons] at hm
      injection hm with h1 _
      simp only [List.length_nil, Nat.zero_add, Function.iterate_one]
      simp only [Chip8.reverseCpu, hprev]
      exact h1
  | cons a p' ih =>
    intro x m hm
    rcases hprev : m.previous_states with _ | ⟨b, rest⟩
    · rw [hprev] at hm
      exact absurd hm (by simp)
    · rw [hprev, List.take_succ_cons] at hm
      injection hm with h1 h2
      have hlen : p'.length + 1 + 1 = (p'.length + 1) + 1 := rfl
      rw [List.length_cons, Function.iterate_succ_apply]
      have hstep : Chip8.reverseCpu m = { m with state := b, previous_states := rest } := by
        simp only [Chip8.reverseCpu, hprev]
      rw [hstep]
      exact ih x { m with state := b, previous_states := rest } h2

/-! ## Claim theorems -/

/-- C1 counterexample: `rewindChip` is reachable (it is `Chip8::new` after a
successful `load_rom`), holds `pc = 0x200`, and one forward cycle followed
by one `reverse_cycle` leaves `pc = 0x202`: the history stores the
post-execution snapshot, so the round trip does not restore the
pre-cycle state. -/
theorem C1_rewind_counterexample :
    Chip8.loadRom rewindRom Chip8.new = some rewindChip
    ∧ Reachable rewindChip
    ∧ rewindChip.state.pc = 0x200
    ∧ (Chip8.advanceCpu 0 rewindChip).map (fun m => (Chip8.reverseCpu m).state.pc)
        = some 0x202 := by
  have hlen : rewindRom.length = 3584 := by
    simp only [rewindRom, List.length_cons, List.length_replicate]
  have hload : Chip8.loadRom rewindRom Chip8.new = some rewindChip := by
    rw [Chip8.loadRom, if_pos (by omega)]
    rfl
  refine ⟨hload, Reachable.loadRom Reachable.new hload, rfl, by decide⟩

/-- C1 (amended): `advance_cpu` pushes the post-execution state, so after
one forward cycle followed by `N - 1` more (`N ≤ MAX_SAVED_STATES`), `N`
`reverse_cpu` calls land on the state *after the first forward cycle* —
not on the state before it, which is never recorded. -/
theorem C1_rewind_lands_after_first_cycle (rnd : Nat) (rnds : List Nat)
    (m m₁ m₂ : Chip8)
    (h1 : Chip8.advanceCpu rnd m = some m₁)
    (h2 : advanceMany rnds m₁ = some m₂)
    (hlen : rnds.length + 1 ≤ MAX_SAVED_STATES) :
    ((Chip8.reverseCpu)^[rnds.length + 1] m₂).state = m₁.state := by
  have hl : m₁.previous_states.take 1 = [m₁.state] := by
    rw [advanceCpu_history rnd m m₁ h1]
    rfl
  obtain ⟨p, hplen, hp⟩ := advanceMany_take rnds m₁ m₂ h2 [m₁.state]
    (by simpa using hl) (by simpa using hlen)
  have hres := reverseCpu_iterate p m₁.state m₂ (by rw [hplen]; simpa using hp)
  rwa [hplen] at hres

/-- C1 witness: the amended theorem at one concrete forward cycle of
`rewindChip` (so `N = 1`): rewinding once lands on the post-cycle state. -/
theorem C1_rewind_lands_after_first_cycle_witness :
    ((Chip8.reverseCpu)^[1] ((Chip8.advanceCpu 0 rewindChip).getD Chip8.new)).state
      = ((Chip8.advanceCpu 0 rewindChip).getD Chip8.new).state :=
  C1_rewind_lands_after_first_cycle 0 [] rewindChip
    ((Chip8.advanceCpu 0 rewindChip).getD Chip8.new)
    ((Chip8.advanceCpu 0 rewindChip).getD Chip8.new)
    rfl rfl (by decide)

/-- C2 counterexample: a machine that has just executed a frame-buffer
mutating instruction (`00E0`) has `draw_flag` set, and `get_frame` returns
the frame buffer. `get_frame` borrows the machine immutably and mutates
nothing, so the machine after the first retrieval is the same value
`drawnChip`, and the claimed second call is again `getFrame drawnChip`,
which is `some` — not `none` — and `draw_flag` is still set afterwards:
retrieving the frame does not clear it. -/
theorem C2_get_frame_counterexample :
    drawnChip.state.draw_flag = true
    ∧ Chip8.getFrame drawnChip = some drawnChip.state.frame_buffer
    ∧ (Chip8.getFrame drawnChip).isSome = true := by
  refine ⟨by decide, rfl, by decide⟩

/-- C2 (amended): `get_frame` returns the current frame buffer exactly when
`draw_flag` is set and nothing otherwise; it performs no mutation, so the
flag is not cleared by retrieval and a repeated call returns the frame
again. -/
theorem C2_get_frame_iff (m : Chip8) :
    (m.state.draw_flag = true → Chip8.getFrame m = some m.state.frame_buffer)
    ∧ (m.state.draw_flag = false → Chip8.getFrame m = none) := by
  constructor <;> intro h <;> simp [Chip8.getFrame, h]

/-- C2 witness: the amended theorem applied to the concrete machine
`drawnChip`. -/
theorem C2_get_frame_iff_witness :
    Chip8.getFrame drawnChip = some drawnChip.state.frame_buffer :=
  (C2_get_frame_iff drawnChip).1 (by decide)

/-- C3 (code bug): `load_rom` delegates to `read_exact(&mut memory[0x200..])`,
whose buffer is `4096 - 0x200 = 3584` bytes. A 2-byte ROM — indeed any source
shorter than 3584 bytes, which is every real CHIP-8 ROM — makes `read_exact`
return an `UnexpectedEof` error, while a source of 3584 bytes or more (even
larger than the claimed 3584-byte limit) succeeds, silently truncating. This
is the reverse of the claimed behaviour. -/
theorem C3_load_rom_read_exact :
    (Chip8.loadRom [0x00, 0xE0] Chip8.new).isNone = true
    ∧ (Chip8.loadRom (List.replicate 3584 0) Chip8.new).isSome = true
    ∧ (Chip8.loadRom (List.replicate 4000 0) Chip8.new).isSome = true := by
  refine ⟨by decide, ?_, ?_⟩ <;>
    · unfold Chip8.loadRom
      rw [List.length_replicate]
      norm_num

/-! ## C6 -/

/-- C4 counterexample: with `x = 0xF` the result write of `add-reg`
overwrites the just-written carry flag. Executing `0x8F04` on `VF = 1`,
`V0 = 1` leaves `VF = 2` — the wrapped sum — although the sum 2 does not
exceed 255, so the claim's `VF = 0` fails. -/
theorem C4_vf_overwrite_counterexample :
    (executeOp 0 0x8F04 vfState (fun _ => 0)).map (fun s' => s'.v 15) = some 2
    ∧ (executeOp 0 0x8F04 vfState (fun _ => 0)).map (fun s' => s'.v 15) ≠ some 0 := by
  refine ⟨by decide, by decide⟩

/-- C4 (amended): for register indices `x ≠ 0xF` (and any `y`), `add-reg`
leaves `VF = 1` exactly when `Vx + Vy` exceeds 255 and `VF = 0` otherwise,
and `sub-reg` leaves `VF = 1` exactly when `Vx ≥ Vy` (no borrow) and
`VF = 0` otherwise. For `x = 0xF` the result write overwrites the flag. -/
theorem C4_vf_flags (rnd op : Nat) (s : State) (keys : Nat → Nat)
    (hx : opX op ≠ 15) (hpc : s.pc + 2 ≤ 65535) :
    (fromOp op = some .Addr →
      (executeOp rnd op s keys).map (fun s' => s'.v 15)
        = some (if 255 < s.v (opX op) + s.v (opY op) then 1 else 0))
    ∧ (fromOp op = some .Sub →
      (executeOp rnd op s keys).map (fun s' => s'.v 15)
        = some (if s.v (opY op) ≤ s.v (opX op) then 1 else 0)) := by
  constructor <;> intro hdec
  · simp only [executeOp, hdec, executeInstr, addr, if_pos hpc, Option.map_some']
    rw [Function.update_noteq (Ne.symm hx), Function.update_same]
    have h : (256 ≤ s.v (opX op) + s.v (opY op)) ↔ (255 < s.v (opX op) + s.v (opY op)) := by
      omega
    simp [h]
  · simp only [executeOp, hdec, executeInstr, sub, if_pos hpc, Option.map_some']
    rw [Function.update_noteq (Ne.symm hx), Function.update_same]
    congr 1
    split <;> split <;> first | rfl | omega

/-- C4 witness: the amended flag laws at concrete opcodes `0x8124` and
`0x8125` on a state with `V1 = 200`, `V2 = 100`. -/
theorem C4_vf_flags_witness :
    (executeOp 0 0x8124 addsubState (fun _ => 0)).map (fun s' => s'.v 15) = some 1
    ∧ (executeOp 0 0x8125 addsubState (fun _ => 0)).map (fun s' => s'.v 15) = some 1 := by
  constructor
  · have h := (C4_vf_flags 0 0x8124 addsubState (fun _ => 0) (by decide) (by decide)).1 (by decide)
    simpa using h
  · have h := (C4_vf_flags 0 0x8125 addsubState (fun _ => 0) (by decide) (by decide)).2 (by decide)
    simpa using h

/-- C5: decoding `Dxyn` dispatches to `draw`, which—given that the sprite
fits in memory—succeeds, advances `pc` by 2, sets the draw flag, XORs the
`n`-byte sprite onto the frame buffer at `(Vx, Vy)` with per-axis modulo
wraparound and most-significant bit first, leaves all unrelated pixels and
state components untouched, and sets `VF` to the logical OR over all sprite
bits of `pixel AND pre-draw frame value`. -/
theorem C5_draw_spec (rnd op : Nat) (s : State) (keys : Nat → Nat)
    (hdec : fromOp op = some .Draw)
    (hpc : s.pc + 2 ≤ 65535)
    (hmem : s.i + opN op ≤ 4096)
    (hfb : ∀ r c, s.frame_buffer r c ≤ 1) :
    ∃ s', executeOp rnd op s keys = some s'
      ∧ s'.pc = s.pc + 2
      ∧ s'.draw_flag = true
      ∧ (∀ b, b < opN op → ∀ t, t < 8 →
          s'.frame_buffer ((s.v (opY op) + b) % 32) ((s.v (opX op) + t) % 64)
            = s.frame_buffer ((s.v (opY op) + b) % 32) ((s.v (opX op) + t) % 64)
              ^^^ (s.memory (s.i + b) >>> (7 - t) &&& 1))
      ∧ (∀ r c, (∀ b, b < opN op → ∀ t, t < 8 →
            ¬(r = (s.v (opY op) + b) % 32 ∧ c = (s.v (opX op) + t) % 64)) →
          s'.frame_buffer r c = s.frame_buffer r c)
      ∧ s'.v 15 ≤ 1
      ∧ (s'.v 15 = 1 ↔ ∃ b, b < opN op ∧ ∃ t, t < 8
          ∧ (s.memory (s.i + b) >>> (7 - t) &&& 1) = 1
          ∧ s.frame_buffer ((s.v (opY op) + b) % 32) ((s.v (opX op) + t) % 64) = 1)
      ∧ (∀ j, j ≠ 15 → s'.v j = s.v j)
      ∧ s'.memory = s.memory ∧ s'.i = s.i ∧ s'.sp = s.sp ∧ s'.stack = s.stack
      ∧ s'.delay_timer = s.delay_timer ∧ s'.sound_timer = s.sound_timer
      ∧ s'.register_needing_key = s.register_needing_key := by
  have hn16 : opN op < 16 := Nat.mod_lt op (by norm_num)
  have hexec : executeOp rnd op s keys = draw op s := by
    simp only [executeOp, hdec]
    rfl
  rw [draw, if_pos ⟨Or.inl hmem, hpc⟩] at hexec
  obtain ⟨vf, fb, hF⟩ : ∃ vf fb, (List.range (opN op)).foldl
      (fun acc byte => (List.range 8).foldl (fun acc2 bit => drawAcc s op acc2 (byte, bit)) acc)
      (0, s.frame_buffer) = (vf, fb) := ⟨_, _, rfl⟩
  simp only [hF] at hexec
  -- pointwise characterization of the resulting frame buffer
  have hfbchar : ∀ r c, fb r c = s.frame_buffer r c ^^^
      (List.range (opN op)).foldl (fun acc b => acc ^^^
        (List.range 8).foldl (fun a t => a ^^^
          (if r = (s.v (opY op) + b) % 32 ∧ c = (s.v (opX op) + t) % 64
           then s.memory (s.i + b) >>> (7 - t) &&& 1 else 0)) 0) 0 := by
    intro r c
    have := drawOuter_snd s op (List.range (opN op)) (0, s.frame_buffer) r c
    rw [hF] at this
    simpa only [DISPLAY_HEIGHT, DISPLAY_WIDTH] using this
  -- characterization of the collision flag
  have hvfchar : vf = (drawHits (opN op)).foldl (fun a bt => a |||
      ((s.memory (s.i + bt.1) >>> (7 - bt.2) &&& 1)
        &&& s.frame_buffer ((s.v (opY op) + bt.1) % 32) ((s.v (opX op) + bt.2) % 64))) 0 := by
    have := drawFold_fst s op (drawHits (opN op)) (0, s.frame_buffer)
    rw [← foldl_hits, hF] at this
    simpa only [DISPLAY_HEIGHT, DISPLAY_WIDTH] using this
  have hterm_le : ∀ bt : Nat × Nat,
      ((s.memory (s.i + bt.1) >>> (7 - bt.2) &&& 1)
        &&& s.frame_buffer ((s.v (opY op) + bt.1) % 32) ((s.v (opX op) + bt.2) % 64)) ≤ 1 :=
    fun bt => le_trans Nat.and_le_left Nat.and_le_right
  refine ⟨_, hexec, rfl, rfl, ?_, ?_, ?_, ?_, ?_, rfl, rfl, rfl, rfl, rfl, rfl, rfl⟩
  · -- sprite pixels are XORed in
    intro b hb t ht
    show fb ((s.v (opY op) + b) % 32) ((s.v (opX op) + t) % 64)
      = s.frame_buffer ((s.v (opY op) + b) % 32) ((s.v (opX op) + t) % 64)
        ^^^ (s.memory (s.i + b) >>> (7 - t) &&& 1)
    rw [hfbchar]
    congr 1
    rw [foldl_xor_single _ (opN op) b hb ?_]
    · rw [foldl_xor_single _ 8 t ht ?_]
      · rw [if_pos ⟨rfl, rfl⟩]
      · intro t' ht' hne
        rw [if_neg]
        rintro ⟨-, h2⟩
        omega
    · intro j hj hne
      apply foldl_xor_zero
      intro t' ht'
      rw [if_neg]
      rintro ⟨h1, -⟩
      omega
  · -- pixels not covered by the sprite are unchanged
    intro r c hmiss
    show fb r c = s.frame_buffer r c
    rw [hfbchar]
    rw [foldl_xor_zero _ (opN op) ?_]
    · rw [Nat.xor_zero]
    · intro j hj
      apply foldl_xor_zero
      intro t' ht'
      rw [if_neg]
      exact hmiss j hj t' ht'
  · -- the flag is a bit
    show Function.update s.v 15 vf 15 ≤ 1
    rw [Function.update_same, hvfchar]
    exact foldl_or_le_one _ hterm_le _ 0 (by omega)
  · -- the flag is the OR of all collision bits
    show Function.update s.v 15 vf 15 = 1 ↔ _
    rw [Function.update_same, hvfchar,
      foldl_or_eq_one _ hterm_le (drawHits (opN op)) 0 (by omega)]
    constructor
    · rintro (h | ⟨bt, hmem', hbt⟩)
      · omega
      · obtain ⟨hb, ht⟩ := (drawHits_mem _ _).mp hmem'
        rw [and_bit_eq_one _ _ Nat.and_le_right (hfb _ _)] at hbt
        exact ⟨bt.1, hb, bt.2, ht, hbt.1, hbt.2⟩
    · rintro ⟨b, hb, t, ht, hpix, hcyc⟩
      refine Or.inr ⟨(b, t), (drawHits_mem _ _).mpr ⟨hb, ht⟩, ?_⟩
      rw [and_bit_eq_one _ _ Nat.and_le_right (hfb _ _)]
      exact ⟨hpix, hcyc⟩
  · -- no other register changes
    intro j hj
    show Function.update s.v 15 vf j = s.v j
    rw [Function.update_noteq hj]

/-- C5 witness: the draw law at the concrete opcode `0xD011` (an 8×1 sprite
at `Vx = 63, Vy = 31`): execution succeeds, the row wraps to columns
63, 0, 1, ..., 6 of row 31, other pixels stay clear, and no collision is
reported. -/
theorem C5_draw_spec_witness :
    ∃ s', executeOp 0 0xD011 wrapState (fun _ => 0) = some s'
      ∧ s'.pc = 0x202
      ∧ s'.frame_buffer 31 63 = 1
      ∧ s'.frame_buffer 31 0 = 1
      ∧ s'.frame_buffer 31 6 = 1
      ∧ s'.frame_buffer 31 7 = 0
      ∧ s'.frame_buffer 30 63 = 0
      ∧ s'.v 15 = 0 := by
  obtain ⟨s', hs', hpc', -, hhit, hmiss, hle, hiff, -⟩ :=
    C5_draw_spec 0 0xD011 wrapState (fun _ => 0) (by decide) (by decide) (by decide)
      (fun _ _ => Nat.zero_le 1)
  have h63 : s'.frame_buffer 31 63 = 1 := hhit 0 (by decide) 0 (by decide)
  have h0 : s'.frame_buffer 31 0 = 1 := hhit 0 (by decide) 1 (by decide)
  have h6 : s'.frame_buffer 31 6 = 1 := hhit 0 (by decide) 7 (by decide)
  have h7 : s'.frame_buffer 31 7 = 0 := by
    rw [hmiss 31 7 (by decide)]
    rfl
  have h30 : s'.frame_buffer 30 63 = 0 := by
    rw [hmiss 30 63 (by decide)]
    rfl
  have hvf : s'.v 15 = 0 := by
    have hnot : ¬(s'.v 15 = 1) := fun h => (by decide :
      ¬∃ b, b < opN 0xD011 ∧ ∃ t, t < 8
        ∧ (wrapState.memory (wrapState.i + b) >>> (7 - t) &&& 1) = 1
        ∧ wrapState.frame_buffer ((wrapState.v (opY 0xD011) + b) % 32)
            ((wrapState.v (opX 0xD011) + t) % 64) = 1) (hiff.mp h)
    omega
  exact ⟨s', hs', hpc', h63, h0, h6, h7, h30, hvf⟩

/-- C6 (code bug): starting from a state whose sub-cycle counter holds the
reset value 8, eight `advance_timers` calls do not decrement the timers at
all (the counter merely counts 8, 7, ..., 1, 0), and only the ninth call —
finding the counter at 0 — decrements them and resets the counter to 8. The
timers therefore decrement once every 9 calls, not once every 8 as the claim
(and the doc comment in `state.rs`) states. -/
theorem C6_timer_period_nine :
    ((Chip8.advanceTimers)^[8] (mkChip timerState)).state.delay_timer = 5
    ∧ ((Chip8.advanceTimers)^[8] (mkChip timerState)).state.sound_timer = 3
    ∧ ((Chip8.advanceTimers)^[8] (mkChip timerState)).state.delay_counter = 0
    ∧ ((Chip8.advanceTimers)^[9] (mkChip timerState)).state.delay_timer = 4
    ∧ ((Chip8.advanceTimers)^[9] (mkChip timerState)).state.sound_timer = 2
    ∧ ((Chip8.advanceTimers)^[9] (mkChip timerState)).state.delay_counter = 8 := by
  refine ⟨by decide, by decide, by decide, by decide, by decide, by decide⟩

/-! ## C7 -/

/-- C7 counterexample: executing `0x00EE` on `sp = 1`, `stack[1] = 0xABCD`
yields `pc = 0xABCD + 2 = 0xABCF` (and `sp = 0`), not `pc = 0xABCE` as the
claim states. -/
theorem C7_rts_counterexample :
    (executeOp 0 0x00EE rtsState (fun _ => 0)).map (fun s' => (s'.pc, s'.sp))
      = some (0xABCF, 0)
    ∧ (executeOp 0 0x00EE rtsState (fun _ => 0)).map (fun s' => (s'.pc, s'.sp))
      ≠ some (0xABCE, 0) := by
  refine ⟨by decide, by decide⟩

/-- C7 (amended): on any state with `sp = 1` and `stack[1] = 0xABCD`, the
return instruction yields `sp = 0` and `pc = stack[sp] + 2 = 0xABCF`. -/
theorem C7_rts_scenario (rnd op : Nat) (s : State) (keys : Nat → Nat)
    (hdec : fromOp op = some .Rts) (hsp : s.sp = 1) (hst : s.stack 1 = 0xABCD) :
    (executeOp rnd op s keys).map (fun s' => (s'.pc, s'.sp)) = some (0xABCF, 0) := by
  simp [executeOp, hdec, executeInstr, rts, hsp, hst]

/-- C7 witness: the amended scenario at the concrete state `rtsState` and
opcode `0x00EE`. -/
theorem C7_rts_scenario_witness :
    (executeOp 0 0x00EE rtsState (fun _ => 0)).map (fun s' => (s'.pc, s'.sp))
      = some (0xABCF, 0) :=
  C7_rts_scenario 0 0x00EE rtsState (fun _ => 0) (by decide) (by decide) (by decide)

/-- C8: the await-key protocol. Executing `0xF10A` sets
`register_needing_key = Some(1)` and advances `pc` by 2; while a register
awaits a key, `advance_cpu` succeeds without touching any `State` field
(it only pushes the unchanged state onto the history); `key_press(0xE)`
stores `0xE` into the awaited register and clears the flag; and the
concrete two-instruction program `F10A; 6122` shows the cycle after the
key press executing the next instruction normally. -/
theorem C8_await_key_protocol :
    (∀ rnd (s : State) keys, s.pc + 2 ≤ 65535 →
        executeOp rnd 0xF10A s keys
          = some { s with pc := s.pc + 2, register_needing_key := some 1 })
    ∧ (∀ rnd (m : Chip8) r, m.state.register_needing_key = some r →
        Chip8.advanceCpu rnd m = some (Chip8.saveState m)
        ∧ ∀ m', Chip8.advanceCpu rnd m = some m' → m'.state = m.state)
    ∧ (∀ (m : Chip8), m.state.register_needing_key = some 1 →
        Chip8.keyPress 0xE m
          = some { m with
                     state := { m.state with v := Function.update m.state.v 1 0xE,
                                             register_needing_key := none },
                     pressed_keys := Function.update m.pressed_keys 0xE 1 })
    ∧ ((Chip8.advanceCpu 0 awaitChip).map
          (fun m => (m.state.pc, m.state.register_needing_key)) = some (0x202, some 1)
      ∧ ((Chip8.advanceCpu 0 awaitChip).bind (Chip8.advanceCpu 0)).map
          (fun m => (m.state.pc, m.state.register_needing_key)) = some (0x202, some 1)
      ∧ (((Chip8.advanceCpu 0 awaitChip).bind (Chip8.advanceCpu 0)).bind
            (Chip8.keyPress 0xE)).map
          (fun m => (m.state.v 1, m.state.register_needing_key, m.state.pc))
          = some (0xE, none, 0x202)
      ∧ ((((Chip8.advanceCpu 0 awaitChip).bind (Chip8.advanceCpu 0)).bind
            (Chip8.keyPress 0xE)).bind (Chip8.advanceCpu 0)).map
          (fun m => (m.state.v 1, m.state.pc)) = some (0x22, 0x204)) := by
  refine ⟨fun rnd s keys hpc => ?_, fun rnd m r h => ?_, fun m h => ?_,
          by decide, by decide, by decide, by decide⟩
  · show keyd 0xF10A s = _
    rw [keyd, if_pos hpc]
    norm_num [opX]
  · rw [Chip8.advanceCpu, h]
    exact ⟨rfl, fun m' hm' => by
      rw [Option.some_inj] at hm'
      rw [hm'.symm]
      rfl⟩
  · simp only [Chip8.keyPress, h]
    norm_num

/-- C8 witness: the three general laws of the protocol applied to concrete
machines: the await instruction on `baseState`, a pending-key cycle and a
key press on the awaiting machine reached from `awaitChip`. -/
theorem C8_await_key_protocol_witness :
    executeOp 0 0xF10A baseState (fun _ => 0)
      = some { baseState with pc := 0x202, register_needing_key := some 1 }
    ∧ Chip8.advanceCpu 0 (mkChip { baseState with register_needing_key := some 1 })
      = some (Chip8.saveState (mkChip { baseState with register_needing_key := some 1 }))
    ∧ Chip8.keyPress 0xE (mkChip { baseState with register_needing_key := some 1 })
      = some { mkChip { baseState with register_needing_key := some 1 } with
                 state := { { baseState with register_needing_key := some 1 } with
                              v := Function.update
                                ({ baseState with register_needing_key := some 1 }).v 1 0xE,
                              register_needing_key := none },
                 pressed_keys := Function.update
                   (mkChip { baseState with register_needing_key := some 1 }).pressed_keys
                   0xE 1 } := by
  refine ⟨?_, ?_, ?_⟩
  · exact C8_await_key_protocol.1 0 baseState (fun _ => 0) (by decide)
  · exact (C8_await_key_protocol.2.1 0
      (mkChip { baseState with register_needing_key := some 1 }) 1 rfl).1
  · exact C8_await_key_protocol.2.2.1
      (mkChip { baseState with register_needing_key := some 1 }) rfl

/-- C9 counterexample: from `flagChip`, two forward cycles leave
`draw_flag = true` (the second instruction is a clear screen); one
`reverse_cpu` keeps it `true`, but a second `reverse_cpu` — a core
operation — restores the snapshot taken before the clear-screen ran,
whose `draw_flag` is `false`. So the flag is not monotone over all core
operations, and `get_frame` stops returning `Some` again after rewinding. -/
theorem C9_draw_flag_reverse_counterexample :
    ((Chip8.advanceCpu 0 flagChip).bind (Chip8.advanceCpu 0)).map
        (fun m => (m.state.draw_flag,
                   (Chip8.reverseCpu m).state.draw_flag,
                   (Chip8.reverseCpu (Chip8.reverseCpu m)).state.draw_flag))
      = some (true, true, false) := by
  decide

/-- C9 (amended): the draw flag is monotone under forward execution — every
instruction, every `advance_cpu` (after which `get_frame` keeps returning
the frame), `advance_timers`, `key_press` and `key_release` preserve a set
flag (and `get_frame` itself mutates nothing) — but `reverse_cpu` can
restore an older snapshot whose flag is clear. -/
theorem C9_draw_flag_monotone_forward :
    (∀ rnd op (s : State) keys s', executeOp rnd op s keys = some s' →
        s.draw_flag = true → s'.draw_flag = true)
    ∧ (∀ rnd (m : Chip8) m', Chip8.advanceCpu rnd m = some m' →
        m.state.draw_flag = true →
        m'.state.draw_flag = true ∧ Chip8.getFrame m' = some m'.state.frame_buffer)
    ∧ (∀ (m : Chip8), (Chip8.advanceTimers m).state.draw_flag = m.state.draw_flag)
    ∧ (∀ key (m : Chip8) m', Chip8.keyPress key m = some m' →
        m'.state.draw_flag = m.state.draw_flag)
    ∧ (∀ key (m : Chip8) m', Chip8.keyRelease key m = some m' →
        m'.state.draw_flag = m.state.draw_flag) := by
  refine ⟨executeOp_draw_flag_mono, fun rnd m m' h hflag => ?_, fun m => ?_,
          fun key m m' h => ?_, fun key m m' h => ?_⟩
  · have hstate : m'.state.draw_flag = true := by
      rcases hrnk : m.state.register_needing_key with _ | r
      · simp only [Chip8.advanceCpu, hrnk] at h
        rcases hop : m.state.getOp with _ | op
        · simp only [hop] at h
          exact Option.noConfusion h
        · simp only [hop] at h
          rcases hex : executeOp rnd op m.state m.pressed_keys with _ | s'
          · simp only [hex] at h
            exact Option.noConfusion h
          · simp only [hex] at h
            injection h with h
            rw [h.symm]
            exact executeOp_draw_flag_mono rnd op m.state m.pressed_keys s' hex hflag
      · simp only [Chip8.advanceCpu, hrnk] at h
        injection h with h
        rw [h.symm]
        exact hflag
    refine ⟨hstate, ?_⟩
    rw [Chip8.getFrame, if_pos hstate]
  · rw [Chip8.advanceTimers]
    split <;> rfl
  · rcases hrnk : m.state.register_needing_key with _ | r <;>
      simp only [Chip8.keyPress, hrnk] at h <;> split at h
    · injection h with h
      rw [h.symm]
    · exact Option.noConfusion h
    · split at h
      · injection h with h
        rw [h.symm]
      · exact Option.noConfusion h
    · exact Option.noConfusion h
  · rw [Chip8.keyRelease] at h
    split at h
    · injection h with h
      subst h
      rfl
    · exact Option.noConfusion h

/-- C9 witness: the forward-monotonicity law applied to the machine
`drawnChip2` (whose flag is set after a clear screen at 0x202): a further
`advance_cpu` over the `6122` at its pc keeps the flag set and `get_frame`
keeps returning the frame. -/
theorem C9_draw_flag_monotone_forward_witness :
    ∃ m', Chip8.advanceCpu 0 drawnChip2 = some m'
      ∧ m'.state.draw_flag = true
      ∧ Chip8.getFrame m' = some m'.state.frame_buffer := by
  obtain ⟨m', hm'⟩ : ∃ m', Chip8.advanceCpu 0 drawnChip2 = some m' :=
    ⟨(Chip8.advanceCpu 0 drawnChip2).getD Chip8.new, rfl⟩
  obtain ⟨h1, h2⟩ := C9_draw_flag_monotone_forward.2.1 0 drawnChip2 m' hm' (by decide)
  exact ⟨m', hm', h1, h2⟩

/-- C10: `store-bcd`, `store-registers` and `load-registers` index
`memory[I..]` unguarded. With `I + len ≤ 4096` (`len = 3` for `store-bcd`,
`len = x + 1` for the register block transfers) execution succeeds and
writes exactly the contiguous range, leaving every other cell and every
other state component in place; with `I + len > 4096` execution fails
(the slice panic, modelled as `none`) rather than wrapping past 4095. -/
theorem C10_memory_block_bounds (rnd op : Nat) (s : State) (keys : Nat → Nat)
    (hpc : s.pc + 2 ≤ 65535) :
    (fromOp op = some .Bcd →
      (s.i + 3 ≤ 4096 →
        ∃ s', executeOp rnd op s keys = some s'
          ∧ s'.memory s.i = s.v (opX op) / 100 % 10
          ∧ s'.memory (s.i + 1) = s.v (opX op) / 10 % 10
          ∧ s'.memory (s.i + 2) = s.v (opX op) % 10
          ∧ (∀ j, j < s.i ∨ s.i + 3 ≤ j → s'.memory j = s.memory j)
          ∧ s'.v = s.v ∧ s'.pc = s.pc + 2)
      ∧ (4096 < s.i + 3 → executeOp rnd op s keys = none))
    ∧ (fromOp op = some .Stor →
      (s.i + (opX op + 1) ≤ 4096 →
        ∃ s', executeOp rnd op s keys = some s'
          ∧ (∀ k, k ≤ opX op → s'.memory (s.i + k) = s.v k)
          ∧ (∀ j, j < s.i ∨ s.i + (opX op + 1) ≤ j → s'.memory j = s.memory j)
          ∧ s'.v = s.v ∧ s'.pc = s.pc + 2)
      ∧ (4096 < s.i + (opX op + 1) → executeOp rnd op s keys = none))
    ∧ (fromOp op = some .Read →
      (s.i + (opX op + 1) ≤ 4096 →
        ∃ s', executeOp rnd op s keys = some s'
          ∧ (∀ k, k ≤ opX op → s'.v k = s.memory (s.i + k))
          ∧ (∀ k, opX op < k → s'.v k = s.v k)
          ∧ s'.memory = s.memory ∧ s'.pc = s.pc + 2)
      ∧ (4096 < s.i + (opX op + 1) → executeOp rnd op s keys = none)) := by
  refine ⟨fun hdec => ⟨fun hb => ?_, fun hb => ?_⟩,
          fun hdec => ⟨fun hb => ?_, fun hb => ?_⟩,
          fun hdec => ⟨fun hb => ?_, fun hb => ?_⟩⟩
  · simp only [executeOp, hdec, executeInstr, bcd]
    rw [if_pos ⟨hb, hpc⟩]
    refine ⟨_, rfl, ?_, ?_, ?_, fun j hj => ?_, rfl, rfl⟩ <;>
      simp only [Function.update_apply] <;> split_ifs <;>
      first | rfl | (congr 1; omega) | (exfalso; omega) | omega
  · simp only [executeOp, hdec, executeInstr, bcd]
    rw [if_neg (by omega)]
  · simp only [executeOp, hdec, executeInstr, stor]
    rw [if_pos ⟨by omega, hpc⟩]
    refine ⟨_, rfl, fun k hk => ?_, fun j hj => ?_, rfl, rfl⟩ <;>
      simp only [copyRange_apply] <;> split_ifs <;>
      first | rfl | (congr 1; omega) | (exfalso; omega) | omega
  · simp only [executeOp, hdec, executeInstr, stor]
    rw [if_neg (by omega)]
  · simp only [executeOp, hdec, executeInstr, read]
    rw [if_pos ⟨by omega, hpc⟩]
    refine ⟨_, rfl, fun k hk => ?_, fun k hk => ?_, rfl, rfl⟩ <;>
      simp only [copyRange_apply] <;> split_ifs <;>
      first | rfl | (congr 1; omega) | (exfalso; omega) | omega
  · simp only [executeOp, hdec, executeInstr, read]
    rw [if_neg (by omega)]

/-- C10 witness: `store-bcd` of `V1 = 123` at `I = 0x200` writes `[1, 2, 3]`,
and a `store-registers` with `I = 4094, x = 4` fails. -/
theorem C10_memory_block_bounds_witness :
    (∃ s', executeOp 0 0xF133 bcdState (fun _ => 0) = some s'
      ∧ s'.memory 0x200 = 1 ∧ s'.memory 0x201 = 2 ∧ s'.memory 0x202 = 3)
    ∧ executeOp 0 0xF455 oobState (fun _ => 0) = none := by
  constructor
  · obtain ⟨hsucc, -⟩ :=
      (C10_memory_block_bounds 0 0xF133 bcdState (fun _ => 0) (by decide)).1 (by decide)
    obtain ⟨s', hs', h1, h2, h3, -⟩ := hsucc (by decide)
    exact ⟨s', hs', by simpa using h1, by simpa using h2, by simpa using h3⟩
  · obtain ⟨-, hfail⟩ :=
      (C10_memory_block_bounds 0 0xF455 oobState (fun _ => 0) (by decide)).2.1 (by decide)
    exact hfail (by decide)

end Emu8